import Mathlib

/-!
Verification development for the quick-lint-js parser front end.

The repository sample contains the parser's test suite (`test/test-parse.cpp`)
but not the parser, lexer, or visitor sources themselves.  Following the
specification (`spec.md` §2–§4), the definitions below model the lexer, the
expression builder, and the recursive-descent parser, restricted to the
constructs exercised by the claims under verification: `let`/`var`/`const`
declarations (identifier and object-destructuring bindings, initializers and
their error cases), expression statements with Automatic Semicolon Insertion,
expressions with precedence climbing (binary operators, prefix/postfix
updates, parenthesization, member access, indexing, calls, assignment and
compound assignment), and the four `for`-loop forms.  Functions, classes,
imports, templates, arrow functions, comments and the remaining keywords are
outside the modelled subset; no claim depends on them.  Source positions are
counted in characters, which coincides with the spec's byte offsets on the
ASCII inputs the claims use.
-/

namespace QuickLintJs

/-- Modelled from the spec: variable kinds (§3 "Variable kind"); the enum
`variable_kind` is referenced by the tests but its definition is not in the
sample. -/
inductive VarKind where
  | let_ | var_ | const_ | function_ | class_ | parameter | catch_ | import_
deriving Repr, DecidableEq

/-- Modelled from the spec: the closed set of core diagnostic kinds
(§3 "Diagnostic"); the `error_*` enumerators are referenced by the tests but
their definitions are not in the sample. -/
inductive DiagKind where
  | letWithNoBindings
  | strayCommaInLetStatement
  | invalidBindingInLetStatement
  | missingOperandForOperator
  | unmatchedParenthesis
  | missingSemicolonAfterExpression
  | unexpectedIdentifier
deriving Repr, DecidableEq

/-- Modelled from the spec: a diagnostic is a kind plus a half-open byte
range (§3 "Diagnostic", §7). -/
structure Diag where
  kind : DiagKind
  rangeBegin : Nat
  rangeEnd : Nat
deriving Repr, DecidableEq

/-- Modelled from the spec: the semantic events emitted to the visitor
(§3 "Event"); the spy visitor records them in order (§4.5). -/
inductive Event where
  | varDecl (name : String) (kind : VarKind)
  | varUse (name : String)
  | varAssign (name : String)
  | propDecl (name : String)
  | enterBlockScope
  | exitBlockScope
  | enterForScope
  | exitForScope
  | enterClassScope
  | exitClassScope
  | enterFunctionScope
  | enterNamedFunctionScope (name : String)
  | exitFunctionScope
  | endOfModule
deriving Repr, DecidableEq

/-- Modelled from the spec: token kinds (§3 "Token"), restricted to the
punctuators and keywords the claims exercise. -/
inductive TokKind where
  | ident | number | str
  | kwLet | kwVar | kwConst | kwFor | kwIn | kwOf | kwLit
  | plus | minus | star | slash | percent | caret | amp | pipe
  | plusPlus | minusMinus
  | eq | plusEq | minusEq | starEq | slashEq
  | dot | comma | semicolon | colon
  | lparen | rparen | lbrace | rbrace | lbracket | rbracket
  | eof
deriving Repr, DecidableEq

/-- Modelled from the spec: a token carries its kind, half-open range, the
identifier text when relevant, and the ASI flag `has_leading_newline`
(§3 "Token", §4.2). -/
structure Token where
  kind : TokKind
  tokBegin : Nat
  tokEnd : Nat
  text : String
  newlineBefore : Bool
deriving Repr, DecidableEq

end QuickLintJs

namespace QuickLintJs

/-- Identifier start characters per §4.2: ASCII letters, `_`, `$`. -/
def isIdentStart (c : Char) : Bool :=
  c.isAlpha || c = '_' || c = '$'

/-- Identifier continuation characters per §4.2. -/
def isIdentCont (c : Char) : Bool :=
  isIdentStart c || c.isDigit

/-- Split an identifier lexeme from the front of the character stream. -/
def spanIdent : List Char → List Char × List Char
  | [] => ([], [])
  | c :: cs =>
    if isIdentCont c then
      let (xs, rest) := spanIdent cs
      (c :: xs, rest)
    else ([], c :: cs)

/-- Split a run of decimal digits from the front of the character stream. -/
def spanDigits : List Char → List Char × List Char
  | [] => ([], [])
  | c :: cs =>
    if c.isDigit then
      let (xs, rest) := spanDigits cs
      (c :: xs, rest)
    else ([], c :: cs)

/-- Modelled from the spec: number literal scanning (§4.2): decimal digits
with an optional fraction part. -/
def spanNumber (cs : List Char) : List Char × List Char :=
  let (intPart, rest) := spanDigits cs
  match rest with
  | '.' :: rest2 =>
    let (fracPart, rest3) := spanDigits rest2
    (intPart ++ '.' :: fracPart, rest3)
  | _ => (intPart, rest)

/-- Modelled from the spec: string literal scanning (§4.2): terminated by the
matching quote or end of line; a backslash consumes the following character
verbatim.  Returns the number of characters consumed after the opening quote
(including the closing quote when present). -/
def stringRest (q : Char) : List Char → Nat
  | [] => 0
  | c :: cs =>
    if c = q then 1
    else if c = '\n' ∨ c = '\r' then 0
    else if c = '\\' then
      match cs with
      | [] => 1
      | _ :: cs2 => 2 + stringRest q cs2
    else 1 + stringRest q cs

/-- Modelled from the spec: keyword lookup is an exact byte match against the
keyword table (§4.2), restricted to the keywords the claims exercise. -/
def keywordKind (s : String) : TokKind :=
  if s = "let" then .kwLet
  else if s = "var" then .kwVar
  else if s = "const" then .kwConst
  else if s = "for" then .kwFor
  else if s = "in" then .kwIn
  else if s = "of" then .kwOf
  else if s = "this" ∨ s = "null" ∨ s = "true" ∨ s = "false" then .kwLit
  else .ident

/-- Modelled from the spec: the lexer (§4.2).  Whitespace is skipped
silently; line terminators are skipped but set `has_leading_newline` on the
next token; identifiers, number literals, string literals and punctuators are
scanned with maximal munch.  Fuel bounds the recursion; one unit per emitted
or skipped character suffices. -/
def lexFrom : Nat → List Char → Nat → Bool → List Token
  | 0, _, pos, nl => [⟨.eof, pos, pos, "", nl⟩]
  | _ + 1, [], pos, nl => [⟨.eof, pos, pos, "", nl⟩]
  | fuel + 1, c :: cs, pos, nl =>
    if c = ' ' ∨ c = '\t' then
      lexFrom fuel cs (pos + 1) nl
    else if c = '\n' ∨ c = '\r' then
      lexFrom fuel cs (pos + 1) true
    else if isIdentStart c then
      let (xs, rest) := spanIdent (c :: cs)
      let s := String.mk xs
      ⟨keywordKind s, pos, pos + xs.length, s, nl⟩ ::
        lexFrom fuel rest (pos + xs.length) false
    else if c.isDigit then
      let (xs, rest) := spanNumber (c :: cs)
      ⟨.number, pos, pos + xs.length, "", nl⟩ ::
        lexFrom fuel rest (pos + xs.length) false
    else if c = '\x27' ∨ c = '"' then
      let n := stringRest c cs
      ⟨.str, pos, pos + 1 + n, "", nl⟩ ::
        lexFrom fuel (cs.drop n) (pos + 1 + n) false
    else if c = '+' then
      match cs with
      | '+' :: rest => ⟨.plusPlus, pos, pos + 2, "", nl⟩ :: lexFrom fuel rest (pos + 2) false
      | '=' :: rest => ⟨.plusEq, pos, pos + 2, "", nl⟩ :: lexFrom fuel rest (pos + 2) false
      | rest => ⟨.plus, pos, pos + 1, "", nl⟩ :: lexFrom fuel rest (pos + 1) false
    else if c = '-' then
      match cs with
      | '-' :: rest => ⟨.minusMinus, pos, pos + 2, "", nl⟩ :: lexFrom fuel rest (pos + 2) false
      | '=' :: rest => ⟨.minusEq, pos, pos + 2, "", nl⟩ :: lexFrom fuel rest (pos + 2) false
      | rest => ⟨.minus, pos, pos + 1, "", nl⟩ :: lexFrom fuel rest (pos + 1) false
    else if c = '*' then
      match cs with
      | '=' :: rest => ⟨.starEq, pos, pos + 2, "", nl⟩ :: lexFrom fuel rest (pos + 2) false
      | rest => ⟨.star, pos, pos + 1, "", nl⟩ :: lexFrom fuel rest (pos + 1) false
    else if c = '/' then
      match cs with
      | '=' :: rest => ⟨.slashEq, pos, pos + 2, "", nl⟩ :: lexFrom fuel rest (pos + 2) false
      | rest => ⟨.slash, pos, pos + 1, "", nl⟩ :: lexFrom fuel rest (pos + 1) false
    else
      let single : Option TokKind :=
        if c = '%' then some .percent
        else if c = '^' then some .caret
        else if c = '&' then some .amp
        else if c = '|' then some .pipe
        else if c = '=' then some .eq
        else if c = '.' then some .dot
        else if c = ',' then some .comma
        else if c = ';' then some .semicolon
        else if c = ':' then some .colon
        else if c = '(' then some .lparen
        else if c = ')' then some .rparen
        else if c = '\x7b' then some .lbrace
        else if c = '\x7d' then some .rbrace
        else if c = '[' then some .lbracket
        else if c = ']' then some .rbracket
        else none
      match single with
      | some k => ⟨k, pos, pos + 1, "", nl⟩ :: lexFrom fuel cs (pos + 1) false
      | none => lexFrom fuel cs (pos + 1) nl

/-- Tokenize a whole source buffer; the stream always ends with an `eof`
token (§3 invariant: requesting tokens after EOF is idempotent). -/
def tokenize (src : String) : List Token :=
  lexFrom (src.length + 1) src.data 0 false

mutual
/-- Modelled from the spec: expression nodes of the expression builder (§3
"Expression node", §4.3), restricted to the variants the claims exercise.
`missing` is the synthetic missing operand used during error recovery. -/
inductive Expr where
  | missing
  | lit
  | var (name : String)
  | unary (operand : Expr)
  | preUpdate (operand : Expr)
  | postUpdate (operand : Expr)
  | bin (lhs rhs : Expr)
  | assign (target rhs : Expr)
  | compoundAssign (target rhs : Expr)
  | dot (obj : Expr) (prop : String)
  | index (obj idx : Expr)
  | call (callee : Expr) (args : ExprList)
  | paren (inner : Expr)
deriving Repr, DecidableEq

/-- Argument list of a call expression. -/
inductive ExprList where
  | nil
  | cons (head : Expr) (tail : ExprList)
deriving Repr, DecidableEq
end

/-- Modelled from the spec: whether an assignment target is a bare identifier
(possibly parenthesized), in which case assigning to it emits
`variable_assignment` (§4.4.2 "Event emission inside expressions"). -/
def bareTarget : Expr → Option String
  | .var x => some x
  | .paren e => bareTarget e
  | _ => none

mutual
/-- Modelled from the spec: the events emitted when the parser visits a
completed expression (§4.4.2 "Event emission inside expressions"): reading an
identifier emits `variable_use`; `target = rhs` with a bare identifier target
visits the rhs first and then emits `variable_assignment(target)`, while a
member-access target produces only uses, target before rhs; compound
assignment and updates visit the target as a use first; member access visits
the object only; calls visit callee then arguments in order. -/
def visitExpr : Expr → List Event
  | .missing => []
  | .lit => []
  | .var x => [.varUse x]
  | .unary e => visitExpr e
  | .preUpdate e => visitExpr e ++ updateAssignEvents e
  | .postUpdate e => visitExpr e ++ updateAssignEvents e
  | .bin l r => visitExpr l ++ visitExpr r
  | .assign t r =>
    match bareTarget t with
    | some x => visitExpr r ++ [.varAssign x]
    | none => visitExpr t ++ visitExpr r
  | .compoundAssign t r =>
    visitExpr t ++ visitExpr r ++ updateAssignEvents t
  | .dot obj _ => visitExpr obj
  | .index obj idx => visitExpr obj ++ visitExpr idx
  | .call callee args => visitExpr callee ++ visitArgs args
  | .paren e => visitExpr e

/-- The `variable_assignment` event for an update or compound-assignment
target: emitted only for a bare identifier target (§4.4.2). -/
def updateAssignEvents (t : Expr) : List Event :=
  match bareTarget t with
  | some x => [.varAssign x]
  | none => []

/-- Events of a call's arguments, in order (§4.4.2). -/
def visitArgs : ExprList → List Event
  | .nil => []
  | .cons e rest => visitExpr e ++ visitArgs rest
end

/-- The current token; the stream built by `tokenize` always ends in `eof`.  -/
def peekTok : List Token → Token
  | [] => ⟨.eof, 0, 0, "", false⟩
  | t :: _ => t

/-- Binary operator precedence per §4.4.2 (`* / %` bind at 13, `+ -` at 12,
bitwise and/xor/or at 8/7/6); 0 means the token is not a binary operator. -/
def binPrec : TokKind → Nat
  | .star | .slash | .percent => 13
  | .plus | .minus => 12
  | .amp => 8
  | .caret => 7
  | .pipe => 6
  | _ => 0

/-- Whether a token can begin an operand, i.e. continue an expression after a
binary operator (§4.4.2 primary production plus prefix operators). -/
def startsOperand : TokKind → Bool
  | .ident | .number | .str | .kwLit | .lparen | .plus | .minus
  | .plusPlus | .minusMinus => true
  | _ => false

/-- Whether a token is a compound-assignment punctuator (§3). -/
def isCompoundAssign : TokKind → Bool
  | .plusEq | .minusEq | .starEq | .slashEq => true
  | _ => false

mutual
/-- Modelled from the spec: parse an assignment-level expression (§4.4.2,
precedence 2, right associative).  Returns the expression node, the
diagnostics emitted while parsing it, and the remaining tokens. -/
def parseAssignE : Nat → List Token → Expr × List Diag × List Token
  | 0, ts => (.missing, [], ts)
  | fuel + 1, ts =>
    let (lhs, d, ts1) := parseBinE fuel 1 ts
    let t := peekTok ts1
    if t.kind = .eq then
      let (rhs, d2, ts2) := parseAssignE fuel ts1.tail
      (.assign lhs rhs, d ++ d2, ts2)
    else if isCompoundAssign t.kind then
      let (rhs, d2, ts2) := parseAssignE fuel ts1.tail
      (.compoundAssign lhs rhs, d ++ d2, ts2)
    else
      (lhs, d, ts1)

/-- Modelled from the spec: precedence climbing over binary operators
(§4.4.2). -/
def parseBinE : Nat → Nat → List Token → Expr × List Diag × List Token
  | 0, _, ts => (.missing, [], ts)
  | fuel + 1, minPrec, ts =>
    let (lhs, d, ts1) := parseUnaryE fuel ts
    parseBinLoop fuel minPrec lhs d ts1

/-- Modelled from the spec: the binary-operator loop.  After consuming an
operator, if the next token cannot begin an operand the parser emits
`missing_operand_for_operator` on the operator token and recovers with a
synthetic missing right operand (§4.4.2 "Expression errors"); if that next
token is itself a binary operator the loop continues with it. -/
def parseBinLoop : Nat → Nat → Expr → List Diag → List Token →
    Expr × List Diag × List Token
  | 0, _, lhs, d, ts => (lhs, d, ts)
  | fuel + 1, minPrec, lhs, d, ts =>
    let t := peekTok ts
    if binPrec t.kind ≥ minPrec ∧ binPrec t.kind ≠ 0 then
      let ts1 := ts.tail
      if startsOperand (peekTok ts1).kind then
        let (rhs, d2, ts2) := parseBinE fuel (binPrec t.kind + 1) ts1
        parseBinLoop fuel minPrec (.bin lhs rhs) (d ++ d2) ts2
      else
        let diag : Diag := ⟨.missingOperandForOperator, t.tokBegin, t.tokEnd⟩
        if binPrec (peekTok ts1).kind ≠ 0 then
          parseBinLoop fuel minPrec (.bin lhs .missing) (d ++ [diag]) ts1
        else
          (.bin lhs .missing, d ++ [diag], ts1)
    else
      (lhs, d, ts)

/-- Modelled from the spec: prefix unary operators (§4.4.2, precedence 15),
restricted to `+`, `-` and the update operators. -/
def parseUnaryE : Nat → List Token → Expr × List Diag × List Token
  | 0, ts => (.missing, [], ts)
  | fuel + 1, ts =>
    let t := peekTok ts
    match t.kind with
    | .plus | .minus =>
      let (e, d, ts1) := parseUnaryE fuel ts.tail
      (.unary e, d, ts1)
    | .plusPlus | .minusMinus =>
      let (e, d, ts1) := parseUnaryE fuel ts.tail
      (.preUpdate e, d, ts1)
    | _ =>
      let (e, d, ts1) := parsePrimaryE fuel ts
      parsePostOps fuel e d ts1

/-- Modelled from the spec: the member/call/postfix loop (§4.4.2, precedence
17/16): `.name`, `[expr]`, call arguments, and postfix `++`/`--`.  A postfix
update does not attach across a line terminator (§4.4.4). -/
def parsePostOps : Nat → Expr → List Diag → List Token →
    Expr × List Diag × List Token
  | 0, e, d, ts => (e, d, ts)
  | fuel + 1, e, d, ts =>
    let t := peekTok ts
    match t.kind with
    | .dot =>
      let t2 := peekTok ts.tail
      if t2.kind = .ident then
        parsePostOps fuel (.dot e t2.text) d ts.tail.tail
      else
        (e, d, ts)
    | .lbracket =>
      let (i, d2, ts1) := parseAssignE fuel ts.tail
      let ts2 := if (peekTok ts1).kind = .rbracket then ts1.tail else ts1
      parsePostOps fuel (.index e i) (d ++ d2) ts2
    | .lparen =>
      let (args, d2, ts1) := parseArgsE fuel ts.tail
      if (peekTok ts1).kind = .rparen then
        parsePostOps fuel (.call e args) (d ++ d2) ts1.tail
      else
        parsePostOps fuel (.call e args)
          (d ++ d2 ++ [⟨.unmatchedParenthesis, t.tokBegin, t.tokEnd⟩]) ts1
    | .plusPlus | .minusMinus =>
      if t.newlineBefore then
        (e, d, ts)
      else
        parsePostOps fuel (.postUpdate e) d ts.tail
    | _ => (e, d, ts)

/-- Modelled from the spec: the primary production (§4.4.2): identifier
reference, literal, parenthesized expression.  A parenthesized expression
whose `)` is absent at the end emits `unmatched_parenthesis` on the `(` after
the inner expression's diagnostics, so unmatched parentheses are reported
innermost first (§4.4.2 "Expression errors").  A binary-only operator in
operand position emits `missing_operand_for_operator` on itself and recovery
continues with a synthetic missing left operand. -/
def parsePrimaryE : Nat → List Token → Expr × List Diag × List Token
  | 0, ts => (.missing, [], ts)
  | fuel + 1, ts =>
    let t := peekTok ts
    match t.kind with
    | .ident => (.var t.text, [], ts.tail)
    | .number => (.lit, [], ts.tail)
    | .str => (.lit, [], ts.tail)
    | .kwLit => (.lit, [], ts.tail)
    | .lparen =>
      let (inner, d, ts1) := parseAssignE fuel ts.tail
      if (peekTok ts1).kind = .rparen then
        (.paren inner, d, ts1.tail)
      else
        (.paren inner, d ++ [⟨.unmatchedParenthesis, t.tokBegin, t.tokEnd⟩], ts1)
    | _ =>
      if binPrec t.kind ≠ 0 then
        let (e, d, ts1) := parseUnaryE fuel ts.tail
        (.bin .missing e,
          ⟨.missingOperandForOperator, t.tokBegin, t.tokEnd⟩ :: d, ts1)
      else
        (.missing, [], ts)

/-- Modelled from the spec: call arguments, comma separated, each at
assignment level (§4.4.2 "Call"). -/
def parseArgsE : Nat → List Token → ExprList × List Diag × List Token
  | 0, ts => (.nil, [], ts)
  | fuel + 1, ts =>
    if (peekTok ts).kind = .rparen then
      (.nil, [], ts)
    else
      let (e, d, ts1) := parseAssignE fuel ts
      if (peekTok ts1).kind = .comma then
        let (rest, d2, ts2) := parseArgsE fuel ts1.tail
        (.cons e rest, d ++ d2, ts2)
      else
        (.cons e .nil, d, ts1)
end

/-- Default fuel for a parse over a token stream: each parsing function
consumes at least one unit of nesting per token, with slack. -/
def parseFuel (ts : List Token) : Nat :=
  16 * ts.length + 64

/-- Modelled from the spec: the `parse_and_visit_expression` entry point
(§4.4, §6): parse one expression, emit its events and diagnostics. -/
def parseAndVisitExpression (src : String) : List Event × List Diag :=
  let ts := tokenize src
  let (e, d, _) := parseAssignE (parseFuel ts) ts
  (visitExpr e, d)

/-- End offset of the last token consumed between the states `ts` and `ts1`
(used for the zero-width ASI diagnostic position, §4.4.4). -/
def lastEnd (ts ts1 : List Token) (dflt : Nat) : Nat :=
  match (ts.take (ts.length - ts1.length)).getLast? with
  | some t => t.tokEnd
  | none => dflt

/-- Modelled from the spec: the ASI rule (§4.4.4).  A statement terminator is
satisfied by an explicit `;` (consumed), a `}`, end-of-file, or a token with
`has_leading_newline`; otherwise the parser emits
`missing_semicolon_after_expression` with a zero-width range at the end
offset of the completed expression and continues as if a semicolon were
present. -/
def consumeSemiOrASI (endPos : Nat) (ts : List Token) :
    List Diag × List Token :=
  let t := peekTok ts
  if t.kind = .semicolon then
    ([], ts.tail)
  else if t.kind = .eof ∨ t.kind = .rbrace ∨ t.newlineBefore then
    ([], ts)
  else
    ([⟨.missingSemicolonAfterExpression, endPos, endPos⟩], ts)

mutual
/-- Modelled from the spec: one declarator of a `let`/`var`/`const` statement
(§4.4.1): an identifier binding or an object destructuring pattern,
optionally followed by `=` and an initializer.  The initializer expression is
parsed first and visited before the declaration events — the hard ordering
contract of §4.4.1. -/
def parseDeclarator : Nat → VarKind → List Token →
    List Event × List Diag × List Token
  | 0, _, ts => ([], [], ts)
  | fuel + 1, kind, ts =>
    let t := peekTok ts
    match t.kind with
    | .ident =>
      if (peekTok ts.tail).kind = .eq then
        let (e, d, ts2) := parseAssignE fuel ts.tail.tail
        (visitExpr e ++ [.varDecl t.text kind], d, ts2)
      else
        ([.varDecl t.text kind], [], ts.tail)
    | .lbrace =>
      let (decls, d, ts2) := parseObjPattern fuel kind ts.tail
      if (peekTok ts2).kind = .eq then
        let (e, d2, ts3) := parseAssignE fuel ts2.tail
        (visitExpr e ++ decls, d ++ d2, ts3)
      else
        (decls, d, ts2)
    | _ => ([], [], ts)

/-- Modelled from the spec: object destructuring pattern entries (§4.4.1):
shorthand entries bind their identifier, `key : target` entries bind the
target (an identifier or a nested pattern), one `variable_declaration` per
bound name, recursively.  Entered after the opening `{` is consumed. -/
def parseObjPattern : Nat → VarKind → List Token →
    List Event × List Diag × List Token
  | 0, _, ts => ([], [], ts)
  | fuel + 1, kind, ts =>
    let t := peekTok ts
    match t.kind with
    | .rbrace => ([], [], ts.tail)
    | .eof => ([], [], ts)
    | .ident =>
      if (peekTok ts.tail).kind = .colon then
        let t2 := peekTok ts.tail.tail
        match t2.kind with
        | .ident =>
          let ts2 := if (peekTok ts.tail.tail.tail).kind = .comma then
            ts.tail.tail.tail.tail else ts.tail.tail.tail
          let (rest, d, ts3) := parseObjPattern fuel kind ts2
          (.varDecl t2.text kind :: rest, d, ts3)
        | .lbrace =>
          let (sub, d, ts2) := parseObjPattern fuel kind ts.tail.tail.tail
          let ts3 := if (peekTok ts2).kind = .comma then ts2.tail else ts2
          let (rest, d2, ts4) := parseObjPattern fuel kind ts3
          (sub ++ rest, d ++ d2, ts4)
        | _ =>
          let (rest, d, ts2) := parseObjPattern fuel kind ts.tail.tail.tail
          (rest, d, ts2)
      else
        let ts2 := if (peekTok ts.tail).kind = .comma then ts.tail.tail
          else ts.tail
        let (rest, d, ts3) := parseObjPattern fuel kind ts2
        (.varDecl t.text kind :: rest, d, ts3)
    | _ =>
      let (rest, d, ts2) := parseObjPattern fuel kind ts.tail
      (rest, d, ts2)
end

/-- Result of parsing the inside of a `for` statement: the declaration kind
of the loop variable when one is declared, the unwrapped event sequence, the
diagnostics, and the remaining tokens (§4.4.1 `for`). -/
structure ForRes where
  declKind : Option VarKind
  events : List Event
  diags : List Diag
  rest : List Token
deriving Repr

/-- Modelled from the spec: declared-loop-variable `for` forms wrap all the
loop's events in `enter_for_scope`/`exit_for_scope` when the variable is
declared with `let` or `const`; bare and `var` forms do not (§4.4.1). -/
def forWrap (k : Option VarKind) (ev : List Event) : List Event :=
  if k = some .let_ ∨ k = some .const_ then
    .enterForScope :: ev ++ [.exitForScope]
  else
    ev

mutual
/-- Modelled from the spec: the `parse_and_visit_statement` production
(§4.4.1): dispatch on the current token to variable declarations, `for`
statements, block statements, or expression statements terminated by the ASI
rule.  An expression statement that consumes no token skips the offending
token (error recovery (a), §4.4.5). -/
def parseStmt : Nat → List Token → List Event × List Diag × List Token
  | 0, ts => ([], [], ts)
  | fuel + 1, ts =>
    let t := peekTok ts
    match t.kind with
    | .eof => ([], [], ts)
    | .kwLet => parseDeclStmt fuel .let_ ts
    | .kwVar => parseDeclStmt fuel .var_ ts
    | .kwConst => parseDeclStmt fuel .const_ ts
    | .kwFor => parseForStmt fuel ts.tail
    | .lbrace =>
      let (ev, d, ts1) := stmtsUntilRbrace fuel ts.tail
      let ts2 := if (peekTok ts1).kind = .rbrace then ts1.tail else ts1
      (.enterBlockScope :: ev ++ [.exitBlockScope], d, ts2)
    | .semicolon => ([], [], ts.tail)
    | _ =>
      let (e, d, ts1) := parseAssignE fuel ts
      if ts1.length = ts.length then
        ([], [], ts.tail)
      else
        let endPos := lastEnd ts ts1 t.tokBegin
        let (d2, ts2) := consumeSemiOrASI endPos ts1
        (visitExpr e, d ++ d2, ts2)

/-- Modelled from the spec: a `let`/`var`/`const` declaration statement
(§4.4.1): the keyword, a declarator list, and an optional `;`. -/
def parseDeclStmt : Nat → VarKind → List Token →
    List Event × List Diag × List Token
  | 0, _, ts => ([], [], ts)
  | fuel + 1, kind, ts =>
    let kw := peekTok ts
    let (ev, d, ts1) := declLoop fuel kind kw true ts.tail
    let ts2 := if (peekTok ts1).kind = .semicolon then ts1.tail else ts1
    (ev, d, ts2)

/-- Modelled from the spec: the declarator list of a declaration statement
with its error cases (§4.4.1): an empty list emits `let_with_no_bindings` on
the keyword range; a trailing comma emits `stray_comma_in_let_statement` on
the comma; a non-binding token emits `invalid_binding_in_let_statement` on
the offending token, which is consumed, and parsing continues. -/
def declLoop : Nat → VarKind → Token → Bool → List Token →
    List Event × List Diag × List Token
  | 0, _, _, _, ts => ([], [], ts)
  | fuel + 1, kind, kw, first, ts =>
    let t := peekTok ts
    match t.kind with
    | .ident | .lbrace =>
      let (ev, d, ts1) := parseDeclarator fuel kind ts
      if (peekTok ts1).kind = .comma then
        let ct := peekTok ts1
        let ts2 := ts1.tail
        let t2 := peekTok ts2
        if t2.kind = .eof ∨ t2.kind = .semicolon then
          (ev, d ++ [⟨.strayCommaInLetStatement, ct.tokBegin, ct.tokEnd⟩], ts2)
        else
          let (ev2, d2, ts3) := declLoop fuel kind kw false ts2
          (ev ++ ev2, d ++ d2, ts3)
      else
        (ev, d, ts1)
    | .eof | .semicolon | .rbrace =>
      if first then
        ([], [⟨.letWithNoBindings, kw.tokBegin, kw.tokEnd⟩], ts)
      else
        ([], [], ts)
    | _ =>
      let diag : Diag := ⟨.invalidBindingInLetStatement, t.tokBegin, t.tokEnd⟩
      let (ev, d, ts1) := declLoop fuel kind kw false ts.tail
      (ev, diag :: d, ts1)

/-- Modelled from the spec: a `for` statement (§4.4.1): parse the inside and
wrap its events in a for-scope exactly when the loop variable is declared
with `let` or `const`. -/
def parseForStmt : Nat → List Token → List Event × List Diag × List Token
  | 0, ts => ([], [], ts)
  | fuel + 1, ts =>
    let r := parseForBody fuel ts
    (forWrap r.declKind r.events, r.diags, r.rest)

/-- Modelled from the spec: the inside of a `for` statement, after the `for`
keyword (§4.4.1 `for`).  For `for (x in/of xs)` forms the iterable is
visited, then the loop target (a declaration for declared targets, an
assignment for a bare target), then the body.  For C-style
`for (init; cond; after)` the event ordering is init, cond, body, after. -/
def parseForBody : Nat → List Token → ForRes
  | 0, ts => ⟨none, [], [], ts⟩
  | fuel + 1, ts =>
    let ts0 := if (peekTok ts).kind = .lparen then ts.tail else ts
    let t := peekTok ts0
    let declKind : Option VarKind :=
      match t.kind with
      | .kwLet => some .let_
      | .kwVar => some .var_
      | .kwConst => some .const_
      | _ => none
    match declKind with
    | some kind =>
      let ts1 := ts0.tail
      let nameTok := peekTok ts1
      let name := nameTok.text
      let ts2 := if nameTok.kind = .ident then ts1.tail else ts1
      let t2 := peekTok ts2
      if t2.kind = .kwIn ∨ t2.kind = .kwOf then
        let (it, d, ts3) := parseAssignE fuel ts2.tail
        let ts4 := if (peekTok ts3).kind = .rparen then ts3.tail else ts3
        let (bev, bd, ts5) := parseStmt fuel ts4
        ⟨some kind, visitExpr it ++ [.varDecl name kind] ++ bev, d ++ bd, ts5⟩
      else
        let (initEv, d1, ts3) :=
          if t2.kind = .eq then
            let (e, d, ts') := parseAssignE fuel ts2.tail
            (visitExpr e, d, ts')
          else
            ([], [], ts2)
        let ts4 := if (peekTok ts3).kind = .semicolon then ts3.tail else ts3
        let (condEv, d2, ts5) :=
          if (peekTok ts4).kind = .semicolon then
            ([], [], ts4)
          else
            let (e, d, ts') := parseAssignE fuel ts4
            (visitExpr e, d, ts')
        let ts6 := if (peekTok ts5).kind = .semicolon then ts5.tail else ts5
        let (afterEv, d3, ts7) :=
          if (peekTok ts6).kind = .rparen then
            ([], [], ts6)
          else
            let (e, d, ts') := parseAssignE fuel ts6
            (visitExpr e, d, ts')
        let ts8 := if (peekTok ts7).kind = .rparen then ts7.tail else ts7
        let (bev, bd, ts9) := parseStmt fuel ts8
        ⟨some kind, initEv ++ [.varDecl name kind] ++ condEv ++ bev ++ afterEv,
          d1 ++ d2 ++ d3 ++ bd, ts9⟩
    | none =>
      let (e, d1, ts2) := parseAssignE fuel ts0
      let t2 := peekTok ts2
      if t2.kind = .kwIn ∨ t2.kind = .kwOf then
        let (it, d2, ts3) := parseAssignE fuel ts2.tail
        let ts4 := if (peekTok ts3).kind = .rparen then ts3.tail else ts3
        let (bev, bd, ts5) := parseStmt fuel ts4
        let targetEv :=
          match bareTarget e with
          | some x => [.varAssign x]
          | none => visitExpr e
        ⟨none, visitExpr it ++ targetEv ++ bev, d1 ++ d2 ++ bd, ts5⟩
      else
        let ts3 := if (peekTok ts2).kind = .semicolon then ts2.tail else ts2
        let (condEv, d2, ts4) :=
          if (peekTok ts3).kind = .semicolon then
            ([], [], ts3)
          else
            let (c, d, ts') := parseAssignE fuel ts3
            (visitExpr c, d, ts')
        let ts5 := if (peekTok ts4).kind = .semicolon then ts4.tail else ts4
        let (afterEv, d3, ts6) :=
          if (peekTok ts5).kind = .rparen then
            ([], [], ts5)
          else
            let (a, d, ts') := parseAssignE fuel ts5
            (visitExpr a, d, ts')
        let ts7 := if (peekTok ts6).kind = .rparen then ts6.tail else ts6
        let (bev, bd, ts8) := parseStmt fuel ts7
        ⟨none, visitExpr e ++ condEv ++ bev ++ afterEv,
          d1 ++ d2 ++ d3 ++ bd, ts8⟩

/-- Statements of a block, until the closing `}` or end of file (§4.4.1). -/
def stmtsUntilRbrace : Nat → List Token → List Event × List Diag × List Token
  | 0, ts => ([], [], ts)
  | fuel + 1, ts =>
    let t := peekTok ts
    if t.kind = .rbrace ∨ t.kind = .eof then
      ([], [], ts)
    else
      let (ev, d, ts1) := parseStmt fuel ts
      let (ev2, d2, ts2) := stmtsUntilRbrace fuel ts1
      (ev ++ ev2, d ++ d2, ts2)
end

/-- Modelled from the spec: the `parse_and_visit_statement` entry point on a
parser state (§4.4, §6): parse exactly one top-level statement from the
current token stream. -/
def parseStmtTop (ts : List Token) : List Event × List Diag × List Token :=
  parseStmt (parseFuel ts) ts

/-- Parse the first statement of a source buffer: the test harness pattern
`parser p(code, &v); p.parse_and_visit_statement(v)`. -/
def parseAndVisitStatement (src : String) : List Event × List Diag :=
  let (ev, d, _) := parseStmtTop (tokenize src)
  (ev, d)

/-- Parse two consecutive statements from one source buffer with a shared
parser state: the test harness pattern of two
`p.parse_and_visit_statement(v)` calls on one parser. -/
def parseTwoStatements (src : String) : List Event × List Diag :=
  let (ev1, d1, ts1) := parseStmtTop (tokenize src)
  let (ev2, d2, _) := parseStmtTop ts1
  (ev1 ++ ev2, d1 ++ d2)

/-- Modelled from the spec: the statement loop of `parse_and_visit_module`
(§4.4): parse statements until end-of-file. -/
def moduleLoop : Nat → List Token → List Event × List Diag × List Token
  | 0, ts => ([], [], ts)
  | n + 1, ts =>
    if (peekTok ts).kind = .eof then
      ([], [], ts)
    else
      let (ev, d, ts1) := parseStmtTop ts
      let (ev2, d2, ts2) := moduleLoop n ts1
      (ev ++ ev2, d ++ d2, ts2)

/-- Modelled from the spec: the `parse_and_visit_module` entry point (§4.4,
§6): parse statements until EOF, then emit `end_of_module`. -/
def parseAndVisitModule (src : String) : List Event × List Diag :=
  let ts := tokenize src
  let (ev, d, _) := moduleLoop (ts.length + 1) ts
  (ev ++ [.endOfModule], d)

/-- The per-call event sequences of repeated `parse_and_visit_statement`
calls on one parser state until end-of-file: what a fresh spy visitor per
call would record (§8 "Universal invariants"). -/
def statementSeqLoop : Nat → List Token →
    List (List Event) × List Diag × List Token
  | 0, ts => ([], [], ts)
  | n + 1, ts =>
    if (peekTok ts).kind = .eof then
      ([], [], ts)
    else
      let (ev, d, ts1) := parseStmtTop ts
      let (seq, d2, ts2) := statementSeqLoop n ts1
      (ev :: seq, d ++ d2, ts2)

/-- C1 counterexample: the diagnostics of `parse_and_visit_expression` on
`"2 * (3 + (4"` are not ordered by `range.begin` in emission order — the
first diagnostic emitted begins at 9, the second at 4 — refuting the claimed
total order. -/
theorem diagnostics_emission_order_violates_begin_order :
    ¬ List.Pairwise (fun a b => a.rangeBegin ≤ b.rangeBegin)
      (parseAndVisitExpression "2 * (3 + (4").2 := by
  decide

/-- C1 (amended): diagnostics reach the sink in emission order, but that
order does not always follow `range.begin`: when several parentheses remain
unmatched at the end of an expression they are reported innermost first, so a
later diagnostic can have a smaller `range.begin`; for `"2 * (3 + (4"` the
parser emits `unmatched_parenthesis` `[9,10)` and then `[4,5)`. -/
theorem diagnostics_follow_emission_order_not_begin_order :
    (parseAndVisitExpression "2 * (3 + (4").2 =
      [⟨.unmatchedParenthesis, 9, 10⟩, ⟨.unmatchedParenthesis, 4, 5⟩] := by
  rfl

/-- C2: for every `let`/`var`/`const` declarator `name = init`, the events of
parsing the initializer expression are emitted before the
`variable_declaration` event for the bound name; in particular
`"let x = x"` emits exactly `variable_use("x")` then
`variable_declaration("x", let)`, with no diagnostics. -/
theorem let_initializer_events_precede_declaration :
    (∀ (fuel : Nat) (kind : VarKind) (name : String) (b e b2 e2 : Nat)
        (nl nl2 : Bool) (s2 : String) (rest : List Token),
      parseDeclarator (fuel + 1) kind
          (⟨.ident, b, e, name, nl⟩ :: ⟨.eq, b2, e2, s2, nl2⟩ :: rest) =
        (visitExpr (parseAssignE fuel rest).1 ++ [.varDecl name kind],
          (parseAssignE fuel rest).2.1, (parseAssignE fuel rest).2.2)) ∧
    parseAndVisitStatement "let x = x" =
      ([.varUse "x", .varDecl "x" .let_], []) := by
  constructor
  · intro fuel kind name b e b2 e2 nl nl2 s2 rest
    rcases h : parseAssignE fuel rest with ⟨e', d', ts2⟩
    simp [parseDeclarator, peekTok, h]
  · rfl

/-- C3: when an expression statement is complete, the ASI rule emits exactly
one `missing_semicolon_after_expression` with a zero-width range at the end
offset of the completed expression iff the next token is not `;`, `}`,
end-of-file, or preceded by a newline, and never consumes the next token
except an explicit `;`; for
`"console.log('hello') console.log('world');"` parsed as two statements this
yields two `variable_use("console")` events and that sole diagnostic at
offset 20. -/
theorem missing_semicolon_asi_zero_width :
    (∀ (endPos : Nat) (ts : List Token),
      (consumeSemiOrASI endPos ts).1 =
        (if (peekTok ts).kind = .semicolon ∨ (peekTok ts).kind = .eof ∨
            (peekTok ts).kind = .rbrace ∨
            (peekTok ts).newlineBefore = true then
          ([] : List Diag)
        else
          [⟨.missingSemicolonAfterExpression, endPos, endPos⟩]) ∧
      (consumeSemiOrASI endPos ts).2 =
        (if (peekTok ts).kind = .semicolon then ts.tail else ts)) ∧
    parseTwoStatements
        "console.log(\x27hello\x27) console.log(\x27world\x27);" =
      ([.varUse "console", .varUse "console"],
        [⟨.missingSemicolonAfterExpression, 20, 20⟩]) := by
  constructor
  · intro endPos ts
    unfold consumeSemiOrASI
    split_ifs with h1 h2 h3 <;> simp_all
  · rfl

/-- C4: a parenthesized expression whose `)` is missing at the end of the
expression emits exactly one `unmatched_parenthesis` covering its `(` token,
appended after the inner expression's diagnostics — hence one diagnostic per
unmatched open, innermost first; for `"2 * (3 + (4"` this yields exactly two
`unmatched_parenthesis` diagnostics, `[9,10)` then `[4,5)`, and for
`"2 * (3 + 4"` exactly one at `[4,5)`. -/
theorem unmatched_paren_one_diag_per_open_innermost_first :
    (∀ (fuel : Nat) (b e : Nat) (nl : Bool) (s : String) (ts : List Token),
      parsePrimaryE (fuel + 1) (⟨.lparen, b, e, s, nl⟩ :: ts) =
        (if (peekTok (parseAssignE fuel ts).2.2).kind = .rparen then
          (.paren (parseAssignE fuel ts).1, (parseAssignE fuel ts).2.1,
            (parseAssignE fuel ts).2.2.tail)
        else
          (.paren (parseAssignE fuel ts).1,
            (parseAssignE fuel ts).2.1 ++ [⟨.unmatchedParenthesis, b, e⟩],
            (parseAssignE fuel ts).2.2))) ∧
    (parseAndVisitExpression "2 * (3 + (4").2 =
      [⟨.unmatchedParenthesis, 9, 10⟩, ⟨.unmatchedParenthesis, 4, 5⟩] ∧
    (parseAndVisitExpression "2 * (3 + 4").2 =
      [⟨.unmatchedParenthesis, 4, 5⟩] := by
  refine ⟨?_, by rfl, by rfl⟩
  intro fuel b e nl s ts
  rcases h : parseAssignE fuel ts with ⟨e', d', ts1⟩
  simp [parsePrimaryE, peekTok, h]

/-- C5: when `)` closes a parenthesized expression at a position where a
binary operator still awaits its right operand, the sole diagnostic is
`missing_operand_for_operator` on the operator token, not
`unmatched_parenthesis`: for `"(2 *)"` the diagnostics are exactly
`missing_operand_for_operator` `[3,4)` and no events are emitted. -/
theorem paren_missing_operand_not_unmatched :
    parseAndVisitExpression "(2 *)" =
      ([], [⟨.missingOperandForOperator, 3, 4⟩]) := by
  rfl

/-- C6: a postfix `++` does not attach across a line terminator:
`"x\n++\ny;"` parsed as two statements emits exactly `variable_use("x")`,
`variable_use("y")`, `variable_assignment("y")` with no diagnostics — the
same events as the statements `"x;"` and `"++y;"`. -/
theorem postfix_update_does_not_attach_across_newline :
    parseTwoStatements "x\n++\ny;" =
      ([.varUse "x", .varUse "y", .varAssign "y"], []) ∧
    parseAndVisitStatement "x;" = ([.varUse "x"], []) ∧
    parseAndVisitStatement "++y;" = ([.varUse "y", .varAssign "y"], []) := by
  refine ⟨by rfl, by rfl, by rfl⟩

/-- C7: a `for` statement wraps all its events in
`enter_for_scope`/`exit_for_scope` exactly when the loop variable is declared
with `let` or `const`, and adds no for-scope events for `var` or bare loop
targets — for every `for` statement the emitted events are the inner events
wrapped iff the declaration kind is `let`/`const`; concrete instances cover
the C-style, `for…in` and `for…of` forms. -/
theorem for_scope_wrap_iff_let_or_const :
    (∀ (fuel : Nat) (ts : List Token),
      parseForStmt (fuel + 1) ts =
        (forWrap (parseForBody fuel ts).declKind (parseForBody fuel ts).events,
          (parseForBody fuel ts).diags, (parseForBody fuel ts).rest)) ∧
    (∀ ev : List Event,
      forWrap (some .let_) ev = .enterForScope :: ev ++ [.exitForScope] ∧
      forWrap (some .const_) ev = .enterForScope :: ev ++ [.exitForScope] ∧
      forWrap (some .var_) ev = ev ∧
      forWrap none ev = ev) ∧
    parseAndVisitStatement "for (let x of xs) \x7b body; \x7d" =
      ([.enterForScope, .varUse "xs", .varDecl "x" .let_, .enterBlockScope,
        .varUse "body", .exitBlockScope, .exitForScope], []) ∧
    parseAndVisitStatement "for (let x in xs) \x7b body; \x7d" =
      ([.enterForScope, .varUse "xs", .varDecl "x" .let_, .enterBlockScope,
        .varUse "body", .exitBlockScope, .exitForScope], []) ∧
    parseAndVisitStatement "for (const i = 0; cond; after) \x7b body; \x7d" =
      ([.enterForScope, .varDecl "i" .const_, .varUse "cond",
        .enterBlockScope, .varUse "body", .exitBlockScope, .varUse "after",
        .exitForScope], []) ∧
    parseAndVisitStatement "for (var x of xs) \x7b body; \x7d" =
      ([.varUse "xs", .varDecl "x" .var_, .enterBlockScope, .varUse "body",
        .exitBlockScope], []) ∧
    parseAndVisitStatement "for (var x in xs) \x7b body; \x7d" =
      ([.varUse "xs", .varDecl "x" .var_, .enterBlockScope, .varUse "body",
        .exitBlockScope], []) ∧
    parseAndVisitStatement "for (var i = 0; ; ) \x7b body; \x7d" =
      ([.varDecl "i" .var_, .enterBlockScope, .varUse "body",
        .exitBlockScope], []) ∧
    parseAndVisitStatement "for (x in xs) \x7b body; \x7d" =
      ([.varUse "xs", .varAssign "x", .enterBlockScope, .varUse "body",
        .exitBlockScope], []) ∧
    parseAndVisitStatement "for (x of xs) \x7b body; \x7d" =
      ([.varUse "xs", .varAssign "x", .enterBlockScope, .varUse "body",
        .exitBlockScope], []) := by
  refine ⟨?_, ?_, by rfl, by rfl, by rfl, by rfl, by rfl, by rfl, by rfl,
    by rfl⟩
  · intro fuel ts
    simp [parseForStmt]
  · intro ev
    simp [forWrap]

/-- C8: the event sequence of `parse_and_visit_module` equals the
concatenation of the per-call event sequences of repeated
`parse_and_visit_statement` calls over the same buffer until end-of-file,
followed by one `end_of_module` event, and the diagnostics coincide; the
empty buffer yields exactly `end_of_module` and no diagnostics. -/
theorem module_events_are_statement_concat_then_end :
    (∀ (n : Nat) (ts : List Token),
      (moduleLoop n ts).1 = ((statementSeqLoop n ts).1).flatten ∧
      (moduleLoop n ts).2.1 = (statementSeqLoop n ts).2.1 ∧
      (moduleLoop n ts).2.2 = (statementSeqLoop n ts).2.2) ∧
    (∀ src : String,
      (parseAndVisitModule src).1 =
        ((statementSeqLoop ((tokenize src).length + 1) (tokenize src)).1).flatten
          ++ [.endOfModule] ∧
      (parseAndVisitModule src).2 =
        (statementSeqLoop ((tokenize src).length + 1) (tokenize src)).2.1) ∧
    parseAndVisitModule "" = ([.endOfModule], []) := by
  have main : ∀ (n : Nat) (ts : List Token),
      (moduleLoop n ts).1 = ((statementSeqLoop n ts).1).flatten ∧
      (moduleLoop n ts).2.1 = (statementSeqLoop n ts).2.1 ∧
      (moduleLoop n ts).2.2 = (statementSeqLoop n ts).2.2 := by
    intro n
    induction n with
    | zero => intro ts; simp [moduleLoop, statementSeqLoop]
    | succ n ih =>
      intro ts
      by_cases h : (peekTok ts).kind = .eof
      · simp [moduleLoop, statementSeqLoop, h]
      · rcases h1 : parseStmtTop ts with ⟨ev, d, ts1⟩
        have := ih ts1
        simp [moduleLoop, statementSeqLoop, h, h1, this.1, this.2.1,
          this.2.2]
  have expand : ∀ src : String,
      parseAndVisitModule src =
        ((moduleLoop ((tokenize src).length + 1) (tokenize src)).1 ++
            [.endOfModule],
          (moduleLoop ((tokenize src).length + 1) (tokenize src)).2.1) := by
    intro src
    unfold parseAndVisitModule
    rcases h2 : moduleLoop ((tokenize src).length + 1) (tokenize src) with
      ⟨ev, d, ts⟩
    simp [h2]
  refine ⟨main, ?_, by rfl⟩
  intro src
  have h := main ((tokenize src).length + 1) (tokenize src)
  rw [expand src]
  exact ⟨by rw [h.1], by rw [h.2.1]⟩

/-- C9: an empty object destructuring pattern in a declaration is accepted
without diagnostics and binds nothing while the initializer is still
visited: `"let {} = x;"` emits exactly one `variable_use("x")` event and no
`variable_declaration` events. -/
theorem empty_object_pattern_binds_nothing_visits_initializer :
    parseAndVisitStatement "let \x7b\x7d = x;" = ([.varUse "x"], []) := by
  rfl

/-- C10: a parenthesized identifier as assignment target behaves exactly like
a bare identifier target: `"(x) = y"` emits `variable_use("y")` then
`variable_assignment("x")` with no diagnostics, the same output as
`"x = y"`; in general unwrapping parentheses does not change whether a target
is a bare identifier. -/
theorem parenthesized_identifier_target_same_as_bare :
    parseAndVisitExpression "(x) = y" =
      ([.varUse "y", .varAssign "x"], []) ∧
    parseAndVisitExpression "x = y" = ([.varUse "y", .varAssign "x"], []) ∧
    parseAndVisitExpression "(x) = y" = parseAndVisitExpression "x = y" ∧
    (∀ e : Expr, bareTarget (.paren e) = bareTarget e) := by
  refine ⟨by rfl, by rfl, by rfl, ?_⟩
  intro e
  rfl

end QuickLintJs
